import Mathlib

/-!
Verification of the Food-Tracker nutrition data model and aggregation
engine (`Diet-Tracker.py`), shallowly embedded in Lean.

Modelling conventions:
* Python strings are modelled as `List Char` (`Str`).
* Python floats are modelled as rationals (`ℚ`); `float(...)` conversion of a
  textual field is modelled by the decimal-numeral parser `pyFloatQ`, which
  returns `none` where Python raises `ValueError`.
* Computations that may raise an uncaught Python exception are `Option`-valued;
  `none` means the Python code raises.
* SQLite tables are modelled as association lists kept in insertion (rowid)
  order; `SELECT ... WHERE food_name = ?` with `fetchone()` returns the first
  matching row.
-/

/-- Python strings as lists of characters. -/
abbrev Str := List Char

/-- Auxiliary worker for `pySplit`: `acc` is the (reversed) current chunk,
mirroring the way Python's `str.split` cuts on every occurrence of the
separator. -/
def pySplitAux (sep : Char) : List Char → List Char → List (List Char)
  | [], acc => [acc.reverse]
  | c :: cs, acc =>
    if c = sep then acc.reverse :: pySplitAux sep cs []
    else pySplitAux sep cs (c :: acc)

/-- Model of Python `s.split(sep)` for a single-character separator:
splits on every occurrence, keeping empty chunks (`"".split(';') == ['']`). -/
def pySplit (sep : Char) (s : Str) : List (List Char) :=
  pySplitAux sep s []

/-- Digit-string value; `none` if any character is not a decimal digit.
The empty list parses to `0` (used for the fractional side of `"5."`). -/
def parseDigits : List Char → Option ℕ
  | [] => some 0
  | c :: cs =>
    if c.isDigit then
      (parseDigits cs).map fun rest => (c.toNat - 48) * 10 ^ cs.length + rest
    else
      none

/-- Model of Python `float(s)` restricted to plain decimal numerals
(optional sign, digits, optional single decimal point): returns the exact
rational value, or `none` where Python raises `ValueError`.  Exponent,
`inf`/`nan` and whitespace forms are outside the fragment exercised by the
program's data. -/
def pyFloatQ (s : Str) : Option ℚ :=
  let (sgn, body) : ℚ × Str :=
    match s with
    | '-' :: t => (-1, t)
    | '+' :: t => (1, t)
    | t => (1, t)
  match pySplit '.' body with
  | [intPart] =>
    if intPart = [] then none
    else (parseDigits intPart).map fun n => sgn * n
  | [intPart, fracPart] =>
    if intPart = [] ∧ fracPart = [] then none
    else
      match parseDigits intPart, parseDigits fracPart with
      | some i, some f => some (sgn * (i + (f : ℚ) / 10 ^ fracPart.length))
      | _, _ => none
  | _ => none

/-- Model of Python `int(x)` on a float value: truncation toward zero. -/
def pyTrunc (x : ℚ) : ℤ :=
  if 0 ≤ x then ⌊x⌋ else ⌈x⌉

/-- Model of the rounding performed by Python's `f"{x:.0f}"` format on the
exact value `x`: round to the nearest integer, ties to even. -/
def pyRound0 (x : ℚ) : ℤ :=
  let f := ⌊x⌋
  let r := x - f
  if r < 1 / 2 then f
  else if 1 / 2 < r then f + 1
  else if f % 2 = 0 then f else f + 1

/-! ## Food catalog (`basic_food` / `composite_food` tables) -/

/-- One row of the `basic_food` table: `(food_name, calories_per_100g,
protein_per_100g)`.  The table has no UNIQUE constraint on `food_name`. -/
abbrev BasicRow := Str × ℚ × ℚ

/-- One row of the `composite_food` table.  The source serialises the
ingredient list into the `ingredients` TEXT column as `name,qty;...`; it is
modelled here as the `(ingredient_name, quantity_grams)` pair list it encodes,
since no verified claim depends on that column's textual form. -/
abbrev CompositeRow := Str × List (Str × ℚ) × ℚ × ℚ

/-- The food catalog: the `basic_food` and `composite_food` tables, each in
rowid (insertion) order. -/
structure Catalog where
  basic : List BasicRow
  composite : List CompositeRow
  deriving DecidableEq

/-- Embedding of `SELECT calories_per_100g, protein_per_100g FROM basic_food WHERE
food_name = ?` followed by `fetchone()`: first matching row in rowid order. -/
def lookupBasic (cat : Catalog) (name : Str) : Option (ℚ × ℚ) :=
  (cat.basic.find? fun r => r.1 = name).map fun r => r.2

/-- Same single-table lookup on `composite_food`. -/
def lookupComposite (cat : Catalog) (name : Str) : Option (ℚ × ℚ) :=
  (cat.composite.find? fun r => r.1 = name).map fun r => (r.2.2.1, r.2.2.2)

/-- The `basic_food UNION composite_food` nutrition lookup used by
`save_composite_food`, `update_composite_food` and `calculate_daily_totals`,
followed by `fetchone()`.  SQLite leaves the row order of an unordered UNION
unspecified; this model resolves a name against `basic_food` first, which
coincides with the UNION result whenever a name is not duplicated across
tables (the situation in every verified claim). -/
def lookupFood (cat : Catalog) (name : Str) : Option (ℚ × ℚ) :=
  (lookupBasic cat name).orElse fun _ => lookupComposite cat name

/-- Error taxonomy of the specification (§7).  The embedded save operations
carry an explicit `Option DietError` slot so that the spec's failure claims
can be stated; the source's insert paths never raise, so the slot records
which (if any) error actually occurs. -/
inductive DietError where
  | duplicateName
  | emptyIngredientList
  deriving DecidableEq

/-- Embedding of `save_basic_food`: validates that the (stripped) name, calories and
protein texts are nonempty (silently returning otherwise), converts the two
numeric texts with `float()` (`none` = `ValueError` raised), then
unconditionally INSERTs a new `basic_food` row — there is no duplicate-name
check on this path.  Result: the new catalog and the error signalled (always
`none`: the source signals no error). -/
def saveBasicFood (cat : Catalog) (name calStr protStr : Str) :
    Option (Catalog × Option DietError) :=
  if name = [] ∨ calStr = [] ∨ protStr = [] then
    some (cat, none)
  else
    match pyFloatQ calStr, pyFloatQ protStr with
    | some c, some p =>
      some ({ cat with basic := cat.basic ++ [(name, c, p)] }, none)
    | _, _ => none

/-- The ingredient-collection loop shared by `save_composite_food` and
`update_composite_food`: rows whose name or quantity text is empty are
skipped; remaining names are resolved via the UNION lookup (unresolved rows
are skipped); a resolved row's quantity text is converted with `float()`
(`none` = `ValueError`).  Returns the collected `(name, qty)` list and the
accumulated `(total_calories, total_protein, total_weight)`. -/
def collectIngredients (cat : Catalog) :
    List (Str × Str) → Option (List (Str × ℚ) × ℚ × ℚ × ℚ)
  | [] => some ([], 0, 0, 0)
  | (name, qtyStr) :: rest =>
    if name = [] ∨ qtyStr = [] then
      collectIngredients cat rest
    else
      match lookupFood cat name with
      | none => collectIngredients cat rest
      | some (cpg, ppg) =>
        match pyFloatQ qtyStr with
        | none => none
        | some q =>
          (collectIngredients cat rest).map fun (ing, tc, tp, tw) =>
            ((name, q) :: ing, cpg * q / 100 + tc, ppg * q / 100 + tp, q + tw)

/-- Embedding of `save_composite_food`: empty name is a silent no-op; otherwise the
ingredient rows are collected, and only when `total_weight > 0` is a
`composite_food` row INSERTed with the derived per-100g values.  When
`total_weight` is not positive nothing is stored and no error is raised. -/
def saveCompositeFood (cat : Catalog) (name : Str) (rows : List (Str × Str)) :
    Option (Catalog × Option DietError) :=
  if name = [] then
    some (cat, none)
  else
    (collectIngredients cat rows).map fun (ing, tc, tp, tw) =>
      if 0 < tw then
        ({ cat with composite :=
            cat.composite ++ [(name, ing, tc / tw * 100, tp / tw * 100)] },
          none)
      else
        (cat, none)

/-! ## Daily record store (`daily_data` table) -/

/-- One `daily_data` row: `(weight, food_consumed, exercises)`, with the two
list fields in their serialised TEXT form (`name,value;name,value;...`). -/
abbrev DailyRow := Option ℚ × Str × Str

/-- The `daily_data` table, keyed by its UNIQUE `date` column. -/
abbrev DailyStore := Str → Option DailyRow

/-- The read half of each merge-write: existing row for the date, or the
defaults the source substitutes (`None`, `""`, `""`). -/
def existingDaily (store : DailyStore) (date : Str) : DailyRow :=
  (store date).getD (none, [], [])

/-- Embedding of the `save_weight` body after the UI's nonempty-text check and `float()`
conversion: fetch the date's existing `food_consumed` and `exercises`
(defaulting to `""`), then `INSERT OR REPLACE` the row with the new weight
and the unchanged fields. -/
def saveWeight (store : DailyStore) (date : Str) (w : ℚ) : DailyStore :=
  fun d =>
    if d = date then
      let (_, fs, es) := existingDaily store date
      some (some w, fs, es)
    else store d

/-- The string append performed by `save_food` / `save_exercise`:
`old + ";" + entry` when the old field is nonempty, else just the entry. -/
def appendEntry (old entry : Str) : Str :=
  if old = [] then entry else old ++ ';' :: entry

/-- Embedding of the `save_food` body after the UI's nonempty-text check: `entry` is the
`f"{food},{quantity}"` text (quantity already through `float()` and back
through `str`).  The existing weight and exercises are written back
unchanged; the entry is appended to `food_consumed`. -/
def saveFood (store : DailyStore) (date : Str) (entry : Str) : DailyStore :=
  fun d =>
    if d = date then
      let (w, fs, es) := existingDaily store date
      some (w, appendEntry fs entry, es)
    else store d

/-- Embedding of the `save_exercise` body after the UI's nonempty-text check: symmetric to
`saveFood`, appending to the `exercises` field. -/
def saveExercise (store : DailyStore) (date : Str) (entry : Str) : DailyStore :=
  fun d =>
    if d = date then
      let (w, fs, es) := existingDaily store date
      some (w, fs, appendEntry es entry)
    else store d

/-! ## Per-day aggregation (`calculate_daily_totals`) -/

/-- Parsing of one serialised field as done inline in
`calculate_daily_totals`: guard `if field:` (empty text means no entries),
split on `;`, split each item on `,` and unpack into exactly two components
(`ValueError`, i.e. `none`, on any other arity), and convert the value text
with `float()`.  The `float()` conversion is applied to every entry of the
list, before or independently of any catalog lookup, so a malformed value
raises regardless of whether the name resolves. -/
def parsePairItems : List (List Char) → Option (List (Str × ℚ))
  | [] => some []
  | item :: rest =>
    match pySplit ',' item with
    | [name, valStr] =>
      match pyFloatQ valStr, parsePairItems rest with
      | some v, some l => some ((name, v) :: l)
      | _, _ => none
    | _ => none

def parsePairs (s : Str) : Option (List (Str × ℚ)) :=
  if s = [] then some [] else parsePairItems (pySplit ';' s)

/-- The food loop of `calculate_daily_totals`: starting from the running
`(total_calories_in, total_protein)` pair, each food whose name resolves in
the catalog contributes `per100 * qty / 100`; unresolved names are skipped
(contribute nothing) without aborting. -/
def foodTotalsLoop (cat : Catalog) : List (Str × ℚ) → ℚ × ℚ → ℚ × ℚ
  | [], acc => acc
  | (name, qty) :: rest, (ci, pr) =>
    match lookupFood cat name with
    | some (cpg, ppg) =>
      foodTotalsLoop cat rest (ci + cpg * qty / 100, pr + ppg * qty / 100)
    | none => foodTotalsLoop cat rest (ci, pr)

/-- The exercise loop of `calculate_daily_totals`: sums the literal
`calories_burned` values. -/
def exerciseTotalsLoop : List (Str × ℚ) → ℚ → ℚ
  | [], acc => acc
  | (_, cal) :: rest, acc => exerciseTotalsLoop rest (acc + cal)

/-- One day's `(calories_in, calories_out, protein)` as computed by the body
of `calculate_daily_totals` from the serialised record fields; `none` when
parsing raises an uncaught `ValueError`. -/
def dayTotals (cat : Catalog) (foodStr exStr : Str) : Option (ℚ × ℚ × ℚ) :=
  match parsePairs foodStr, parsePairs exStr with
  | some foods, some exs =>
    some ((foodTotalsLoop cat foods (0, 0)).1, exerciseTotalsLoop exs 0,
      (foodTotalsLoop cat foods (0, 0)).2)
  | _, _ => none

/-- Goal weight constant (`Goal = 80` in the source). -/
def goalWeight : ℚ := 80

/-- One output row of `calculate_daily_totals` (numeric values kept exact;
the source formats them into strings for display).  `priorDiff` and
`goalDiff` are `none` where the source shows `"N/A"`. -/
structure HistoryRow where
  date : Str
  weight : Option ℚ
  caloriesIn : ℚ
  caloriesOut : ℚ
  protein : ℚ
  priorDiff : Option ℚ
  goalDiff : Option ℚ
  deriving DecidableEq

/-- Embedding of the prior-delta computation of `calculate_daily_totals`:
`prior_diff` stays `"N/A"` (`none`) unless both the current weight and
`previous_weight` are present. -/
def priorDelta : Option ℚ → Option ℚ → Option ℚ
  | some w, some pw => some (w - pw)
  | _, _ => none

/-- One `daily_data` record as fed to `calculate_daily_totals`. -/
structure DayRecord where
  date : Str
  weight : Option ℚ
  foodStr : Str
  exStr : Str

/-- The record loop of `calculate_daily_totals` over records already in
ascending date order, threading `previous_weight`.  `prior_diff` is computed
only when both the current weight and `previous_weight` are present; after
every row `previous_weight := weight` unconditionally, so a day without a
weight resets it to `None`.  Produces rows oldest-first; `none` when any
row's serialised fields raise. -/
def historyRowsLoop (cat : Catalog) :
    List DayRecord → Option ℚ → Option (List HistoryRow)
  | [], _ => some []
  | r :: rest, prev =>
    match dayTotals cat r.foodStr r.exStr with
    | none => none
    | some (ci, co, pr) =>
      match historyRowsLoop cat rest r.weight with
      | none => none
      | some rows =>
        some ({ date := r.date, weight := r.weight, caloriesIn := ci,
                caloriesOut := co, protein := pr,
                priorDiff := priorDelta r.weight prev,
                goalDiff := r.weight.map fun w => w - goalWeight } :: rows)

/-- Embedding of `calculate_daily_totals`: run the loop with `previous_weight = None`
over the records in ascending date order, then reverse so the most recent
date comes first. -/
def calculateDailyTotals (cat : Catalog) (records : List DayRecord) :
    Option (List HistoryRow) :=
  (historyRowsLoop cat records none).map List.reverse

/-! ## Graph normalization (`update_graph` / `sync_right_y_axis`) -/

/-- The `max_weight` computation of `update_graph`:
`max([w for w in weights if w is not None]) if weights else 0`.
The guard tests whether the `weights` *list* is nonempty, not whether any
non-`None` weight exists, so a nonempty list of all-`None` entries reaches
`max([])`, which raises `ValueError` — modelled as `none`. -/
def maxWeightOf (weights : List (Option ℚ)) : Option ℚ :=
  if weights = [] then some 0
  else
    match (weights.filterMap id).maximum with
    | none => none
    | some m => some m

/-- The normalization factor of `update_graph`:
`max_weight / max_calories if max_calories > 0 else 1`. -/
def normFactor (maxWeight maxCalories : ℚ) : ℚ :=
  if 0 < maxCalories then maxWeight / maxCalories else 1

/-- Shared tick emitter: Python's `range(rMin, rMax + 1, 100)` over two
multiples of 100, pairing each right-axis value `rv` with the primary-axis
coordinate `rv * factor` (and the source labels the tick `str(rv)`). -/
def ticksFromBounds (rMin rMax : ℤ) (factor : ℚ) : List (ℚ × ℤ) :=
  if rMax < rMin then []
  else
    (List.range (((rMax - rMin) / 100).toNat + 1)).map fun (k : ℕ) =>
      let rv : ℤ := rMin + 100 * (k : ℤ)
      ((rv : ℚ) * factor, rv)

/-- Embedding of `_generate_right_axis_ticks`: divide the primary-axis range
by the factor, take `int(...)` (truncation toward zero), round the low bound
with floor division to a multiple of 100, set the high bound one 100-step
above the floor-divided truncated value, then emit one `(left_coordinate,
right_label)` tick per 100 over the inclusive integer range. -/
def generateRightAxisTicks (leftMin leftMax factor : ℚ) : List (ℚ × ℤ) :=
  ticksFromBounds ((pyTrunc (leftMin / factor)).fdiv 100 * 100)
    (((pyTrunc (leftMax / factor)).fdiv 100 + 1) * 100) factor

/-! ## History table rendering (`update_table`) -/

/-- The protein-cell highlight decision of `update_table` for one row: the
weight is the row's numeric weight (`None` for an `"N/A"` cell), and the
protein value compared is the one parsed back from the displayed
`f"{total_protein:.0f}"` cell, i.e. the total rounded to the nearest
integer.  Rows without a weight never get a foreground colour set. -/
def proteinCellRed (weight : Option ℚ) (totalProtein : ℚ) : Bool :=
  match weight with
  | none => false
  | some w => decide ((pyRound0 totalProtein : ℚ) < 0.8 * w)

/-! ## Specification-side definitions

These follow the wording of the specification / claims and exist to be
compared against the embedded source functions. -/

/-- Spec-side resolution used in the aggregation claims: the resolved
`(calories_per_100g, protein_per_100g)` of a food name, with an unresolved
name contributing `(0, 0)`. -/
def specResolveOr0 (cat : Catalog) (name : Str) : ℚ × ℚ :=
  (lookupFood cat name).getD (0, 0)

/-- Spec-side view of one composite-ingredient input row: `none` for a row
the collection loop skips (empty name or quantity text, or unresolved name)
or whose quantity text is not a numeral, otherwise the resolved
`(calories_per_100g, protein_per_100g, quantity)`. -/
def specResolvedIngredient (cat : Catalog) (row : Str × Str) :
    Option (ℚ × ℚ × ℚ) :=
  if row.1 = [] ∨ row.2 = [] then none
  else
    match lookupFood cat row.1 with
    | none => none
    | some (cpg, ppg) => (pyFloatQ row.2).map fun q => (cpg, ppg, q)

/-- Spec-side secondary-axis ticks exactly as the claim words them: round
the low bound of `[low/factor, high/factor]` down and the high bound up to
the nearest multiple of 100, one tick per 100-unit step. -/
def specRightAxisTicks (low high factor : ℚ) : List (ℚ × ℤ) :=
  ticksFromBounds (⌊low / factor / 100⌋ * 100) (⌈high / factor / 100⌉ * 100)
    factor

/-- Amended description of the source's tick bounds: the low bound is
`⌊low/factor/100⌋ * 100` as the claim says, but the high bound is one full
100-step above the floor, `(⌊high/factor/100⌋ + 1) * 100` — strictly above
`high/factor` even when that is already a multiple of 100.  (Stated for
nonnegative ranges; the embedding is compared to this below.) -/
def amendedRightAxisTicks (low high factor : ℚ) : List (ℚ × ℤ) :=
  ticksFromBounds (⌊low / factor / 100⌋ * 100)
    ((⌊high / factor / 100⌋ + 1) * 100) factor

/-- Entry-level reading of a serialised `name,value;name,value;...` field:
the guarded split (`if field:` then `field.split(';')`) used throughout the
source, with the empty field meaning no entries. -/
def entriesOf (s : Str) : List Str :=
  if s = [] then [] else pySplit ';' s

/-! ## Concrete fixtures for witnesses and counterexamples -/

/-- A catalog holding the spec's example basic foods:
Rice = (130 cal, 2.7 g protein) and Chicken = (165 cal, 31 g protein)
per 100g. -/
def sampleCatalog : Catalog :=
  ⟨[("Rice".data, 130, 27 / 10), ("Chicken".data, 165, 31)], []⟩

/-- Three consecutive daily records: a weight of 80, then a day with no
weight, then a weight of 79 (all with empty food/exercise fields). -/
def sampleRecords : List DayRecord :=
  [⟨"2024-01-01".data, some 80, [], []⟩,
   ⟨"2024-01-02".data, none, [], []⟩,
   ⟨"2024-01-03".data, some 79, [], []⟩]

/-- A store with a single record: weight 80, one food entry, one exercise
entry. -/
def sampleStore : DailyStore :=
  fun d =>
    if d = "2024-01-01".data then
      some (some 80, "Rice,100.0".data, "Run,200.0".data)
    else none

/-- The history rows the embedded `calculate_daily_totals` loop computes for
`sampleRecords` (oldest first, before the final reversal): the day without a
weight resets `previous_weight`, so the third day's prior delta is `none`. -/
def sampleHistoryRows : List HistoryRow :=
  [⟨"2024-01-01".data, some 80, 0, 0, 0, none, some 0⟩,
   ⟨"2024-01-02".data, none, 0, 0, 0, none, none⟩,
   ⟨"2024-01-03".data, some 79, 0, 0, 0, none, some (-1)⟩]

/-! ## Helper lemmas -/

theorem pySplitAux_of_not_mem {sep : Char} {s : List Char} (h : sep ∉ s) :
    ∀ acc, pySplitAux sep s acc = [acc.reverse ++ s] := by
  induction s with
  | nil => intro acc; simp [pySplitAux]
  | cons c cs ih =>
    intro acc
    have hc : ¬c = sep := fun hcs => h (hcs ▸ List.mem_cons_self c cs)
    have hcs : sep ∉ cs := fun hm => h (List.mem_cons_of_mem _ hm)
    simp [pySplitAux, hc, ih hcs]

theorem pySplitAux_append {sep : Char} {e : List Char} (he : sep ∉ e) :
    ∀ (fs : List Char) (acc : List Char),
      pySplitAux sep (fs ++ sep :: e) acc = pySplitAux sep fs acc ++ [e] := by
  intro fs
  induction fs with
  | nil =>
    intro acc
    simp [pySplitAux, pySplitAux_of_not_mem he]
  | cons c cs ih =>
    intro acc
    by_cases hc : c = sep <;> simp [pySplitAux, hc, ih]

theorem entriesOf_appendEntry {old entry : Str}
    (hsep : (';' : Char) ∉ entry) (hne : entry ≠ []) :
    entriesOf (appendEntry old entry) = entriesOf old ++ [entry] := by
  by_cases hold : old = []
  · subst hold
    simp [appendEntry, entriesOf, hne, pySplit, pySplitAux_of_not_mem hsep]
  · have hne2 : old ++ ';' :: entry ≠ [] := by simp
    simp [appendEntry, entriesOf, hold, hne2, pySplit, pySplitAux_append hsep]

theorem foodTotalsLoop_eq (cat : Catalog) :
    ∀ (l : List (Str × ℚ)) (ci pr : ℚ),
      foodTotalsLoop cat l (ci, pr) =
        (ci + (l.map fun nq => (specResolveOr0 cat nq.1).1 * nq.2 / 100).sum,
         pr + (l.map fun nq => (specResolveOr0 cat nq.1).2 * nq.2 / 100).sum) := by
  intro l
  induction l with
  | nil => intro ci pr; simp [foodTotalsLoop]
  | cons nq rest ih =>
    intro ci pr
    obtain ⟨name, qty⟩ := nq
    cases hval : lookupFood cat name with
    | none =>
      simp only [foodTotalsLoop, hval, ih, List.map_cons, List.sum_cons,
        specResolveOr0]
      simp only [Option.getD_none, Prod.mk.injEq]
      constructor <;> ring
    | some v =>
      obtain ⟨cpg, ppg⟩ := v
      simp only [foodTotalsLoop, hval, ih, List.map_cons, List.sum_cons,
        specResolveOr0]
      simp only [Option.getD_some, Prod.mk.injEq]
      constructor <;> ring

theorem exerciseTotalsLoop_eq :
    ∀ (l : List (Str × ℚ)) (a : ℚ),
      exerciseTotalsLoop l a = a + (l.map Prod.snd).sum := by
  intro l
  induction l with
  | nil => intro a; simp [exerciseTotalsLoop]
  | cons nc rest ih =>
    intro a
    obtain ⟨n, c⟩ := nc
    simp only [exerciseTotalsLoop, ih, List.map_cons, List.sum_cons]
    ring

theorem collectIngredients_eq (cat : Catalog) :
    ∀ rows : List (Str × Str),
      (∀ row ∈ rows, row.1 ≠ [] → row.2 ≠ [] →
        (lookupFood cat row.1).isSome → (pyFloatQ row.2).isSome) →
      collectIngredients cat rows =
        some
          (rows.filterMap fun row =>
             (specResolvedIngredient cat row).map fun t => (row.1, t.2.2),
           ((rows.filterMap (specResolvedIngredient cat)).map
              fun t => t.1 * t.2.2 / 100).sum,
           ((rows.filterMap (specResolvedIngredient cat)).map
              fun t => t.2.1 * t.2.2 / 100).sum,
           ((rows.filterMap (specResolvedIngredient cat)).map
              fun t => t.2.2).sum) := by
  intro rows
  induction rows with
  | nil => intro _; simp [collectIngredients]
  | cons row rest ih =>
    intro h
    have hrest := fun r hr => h r (List.mem_cons_of_mem _ hr)
    have hrow := h row (List.mem_cons_self _ _)
    obtain ⟨name, qtyStr⟩ := row
    by_cases hskip : name = [] ∨ qtyStr = []
    · have hspec : specResolvedIngredient cat (name, qtyStr) = none := by
        simp [specResolvedIngredient, hskip]
      simp [collectIngredients, hskip, ih hrest, hspec]
    · push_neg at hskip
      cases hval : lookupFood cat name with
      | none =>
        have hspec : specResolvedIngredient cat (name, qtyStr) = none := by
          simp [specResolvedIngredient, hskip.1, hskip.2, hval]
        simp [collectIngredients, hskip.1, hskip.2, ih hrest, hspec, hval]
      | some v =>
        obtain ⟨cpg, ppg⟩ := v
        have hq : (pyFloatQ qtyStr).isSome := by
          exact hrow hskip.1 hskip.2 (by simp [hval])
        obtain ⟨q, hqv⟩ := Option.isSome_iff_exists.mp hq
        have hspec : specResolvedIngredient cat (name, qtyStr) =
            some (cpg, ppg, q) := by
          simp [specResolvedIngredient, hskip.1, hskip.2, hval, hqv]
        simp [collectIngredients, hskip.1, hskip.2, ih hrest, hspec, hval, hqv]

theorem priorDelta_eq_map₂ (w pw : Option ℚ) :
    priorDelta w pw = Option.map₂ (fun a b => a - b) w pw := by
  cases w <;> cases pw <;> rfl

theorem historyRowsLoop_priorDiff (cat : Catalog) :
    ∀ (rs : List DayRecord) (prev : Option ℚ) (out : List HistoryRow),
      historyRowsLoop cat rs prev = some out →
      out.map (fun r => r.priorDiff) =
        List.zipWith (fun w pw => Option.map₂ (fun a b => a - b) w pw)
          (rs.map fun r => r.weight)
          (prev :: rs.map fun r => r.weight) := by
  intro rs
  induction rs with
  | nil =>
    intro prev out h
    have h2 : (some [] : Option (List HistoryRow)) = some out := h
    cases h2
    simp
  | cons r rest ih =>
    intro prev out h
    rw [historyRowsLoop] at h
    cases ht : dayTotals cat r.foodStr r.exStr with
    | none => rw [ht] at h; exact absurd h (by simp)
    | some t =>
      obtain ⟨ci, co, pr⟩ := t
      rw [ht] at h
      cases hrows : historyRowsLoop cat rest r.weight with
      | none => rw [hrows] at h; exact absurd h (by simp)
      | some rows =>
        rw [hrows] at h
        injection h with h
        subst h
        simp only [List.map_cons, List.zipWith_cons_cons, ih r.weight rows hrows]
        congr 1
        exact priorDelta_eq_map₂ r.weight prev

theorem pyTrunc_of_nonneg {x : ℚ} (h : 0 ≤ x) : pyTrunc x = ⌊x⌋ := by
  simp [pyTrunc, h]

theorem floor_rat_div_100 (x : ℚ) : ⌊x / 100⌋ = ⌊x⌋ / 100 := by
  have h100 : (0 : ℤ) < 100 := by norm_num
  have hmod := Int.emod_emod_of_dvd ⌊x⌋ (dvd_refl 100)
  have hdm : 100 * (⌊x⌋ / 100) + ⌊x⌋ % 100 = ⌊x⌋ := Int.ediv_add_emod ⌊x⌋ 100
  have hr0 : 0 ≤ ⌊x⌋ % 100 := Int.emod_nonneg _ (by norm_num)
  have hr1 : ⌊x⌋ % 100 < 100 := Int.emod_lt_of_pos _ h100
  rw [Int.floor_eq_iff]
  constructor
  · rw [le_div_iff₀ (by norm_num : (0 : ℚ) < 100)]
    have h1 : ((100 * (⌊x⌋ / 100) : ℤ) : ℚ) ≤ (⌊x⌋ : ℚ) := by
      exact_mod_cast le_of_add_le_of_nonneg_left (le_of_eq hdm) hr0
    calc ((⌊x⌋ / 100 : ℤ) : ℚ) * 100 = ((100 * (⌊x⌋ / 100) : ℤ) : ℚ) := by
          push_cast; ring
      _ ≤ (⌊x⌋ : ℚ) := h1
      _ ≤ x := Int.floor_le x
  · rw [div_lt_iff₀ (by norm_num : (0 : ℚ) < 100)]
    have h2 : (⌊x⌋ : ℚ) < ((⌊x⌋ / 100 : ℤ) : ℚ) * 100 + 100 := by
      have : ⌊x⌋ < 100 * (⌊x⌋ / 100) + 100 := by omega
      exact_mod_cast by linarith [this]
    calc x < (⌊x⌋ : ℚ) + 1 := Int.lt_floor_add_one x
      _ ≤ ((⌊x⌋ / 100 : ℤ) : ℚ) * 100 + 100 := by
          have : ⌊x⌋ + 1 ≤ 100 * (⌊x⌋ / 100) + 100 := by omega
          exact_mod_cast by linarith [this]
      _ = (((⌊x⌋ / 100 : ℤ) : ℚ) + 1) * 100 := by ring

theorem pyRound0_bounds (x : ℚ) :
    x - 1 / 2 ≤ (pyRound0 x : ℚ) ∧ (pyRound0 x : ℚ) ≤ x + 1 / 2 := by
  have h0 : (⌊x⌋ : ℚ) ≤ x := Int.floor_le x
  have h1 : x < (⌊x⌋ : ℚ) + 1 := Int.lt_floor_add_one x
  unfold pyRound0
  by_cases ha : x - (⌊x⌋ : ℚ) < 1 / 2
  · simp only [ha, if_true]
    constructor <;> linarith
  · by_cases hb : 1 / 2 < x - (⌊x⌋ : ℚ)
    · simp only [ha, hb, if_false, if_true]
      push_cast
      constructor <;> linarith
    · have heq : x - (⌊x⌋ : ℚ) = 1 / 2 := le_antisymm (not_lt.mp hb) (not_lt.mp ha)
      by_cases hc : ⌊x⌋ % 2 = 0
      · simp only [ha, hb, hc, if_false, if_true]
        constructor <;> linarith
      · simp only [ha, hb, hc, if_false]
        push_cast
        constructor <;> linarith

theorem lookupBasic_append_of_mem {cat : Catalog} {name : Str}
    (h : name ∈ cat.basic.map Prod.fst) (row : BasicRow)
    (comp : List CompositeRow) :
    lookupBasic ⟨cat.basic ++ [row], comp⟩ name = lookupBasic cat name := by
  unfold lookupBasic
  have hsome : (cat.basic.find? fun r => r.1 = name).isSome := by
    rw [List.find?_isSome]
    obtain ⟨r, hr, hname⟩ := List.mem_map.mp h
    exact ⟨r, hr, by simp [hname]⟩
  obtain ⟨v, hv⟩ := Option.isSome_iff_exists.mp hsome
  simp [List.find?_append, hv]

/-! ## Claim theorems -/

/-- C3: per-day aggregation returns `calories_in` as the sum over consumed
foods of `resolve(name).calories_per_100g * qty / 100` (protein analogously)
and `calories_out` as the sum of the literal burned-calories values, where a
food name that matches no catalog entry contributes 0 without aborting the
computation (the result is `some` totals for every catalog). -/
theorem c3_day_aggregation (cat : Catalog) (foodStr exStr : Str)
    (foods exs : List (Str × ℚ))
    (hf : parsePairs foodStr = some foods)
    (he : parsePairs exStr = some exs) :
    dayTotals cat foodStr exStr =
      some ((foods.map fun nq => (specResolveOr0 cat nq.1).1 * nq.2 / 100).sum,
            (exs.map Prod.snd).sum,
            (foods.map fun nq => (specResolveOr0 cat nq.1).2 * nq.2 / 100).sum) := by
  have hfl := foodTotalsLoop_eq cat foods 0 0
  simp only [dayTotals, hf, he]
  rw [hfl]
  simp [exerciseTotalsLoop_eq]

/-- C3 witness: the spec's concrete example — Rice (130 cal, 2.7 g protein
per 100g) eaten at 100 g plus Cycling burning 300 gives totals
`(130, 300, 2.7)`. -/
theorem c3_day_aggregation_witness :
    dayTotals sampleCatalog ("Rice,100".data) ("Cycling,300".data) =
      some (130, 300, 27 / 10) := by
  have h := c3_day_aggregation sampleCatalog ("Rice,100".data)
    ("Cycling,300".data) [("Rice".data, 100)] [("Cycling".data, 300)]
    (by simp [parsePairs, parsePairItems, pySplit, pySplitAux, pyFloatQ,
          parseDigits, Char.toNat]
        norm_num)
    (by simp [parsePairs, parsePairItems, pySplit, pySplitAux, pyFloatQ,
          parseDigits, Char.toNat]
        norm_num)
  refine h.trans ?_
  simp [specResolveOr0, lookupFood, lookupBasic, lookupComposite, sampleCatalog]

/-- C9: a serialised `food_consumed` field that does not parse into
`(name, value)` pairs is **not** treated as an empty list — parsing raises
(`none`), and the day's aggregation aborts with `none` instead of returning
zero totals. -/
theorem c9_malformed_field_raises :
    parsePairs ("Rice".data) = none ∧
    dayTotals (Catalog.mk [] []) ("Rice".data) [] = none := by
  exact ⟨by decide, by decide⟩

/-- C5 (amended): saving a composite food whose collected ingredients give
`total_weight = 0` stores no food — the catalog is returned unchanged — but
raises no `EmptyIngredientListError` or any other error: the save silently
does nothing. -/
theorem c5_zero_weight_silent_noop (cat : Catalog) (name : Str)
    (rows : List (Str × Str)) (ing : List (Str × ℚ)) (tc tp : ℚ)
    (hcol : collectIngredients cat rows = some (ing, tc, tp, 0)) :
    saveCompositeFood cat name rows = some (cat, none) := by
  unfold saveCompositeFood
  by_cases hn : name = []
  · simp [hn]
  · simp [hn, hcol]

/-- C5 witness: saving a composite with an empty ingredient-row list leaves
the sample catalog unchanged and signals nothing. -/
theorem c5_zero_weight_silent_noop_witness :
    saveCompositeFood sampleCatalog ("Mix".data) [] =
      some (sampleCatalog, none) :=
  c5_zero_weight_silent_noop sampleCatalog ("Mix".data) [] [] 0 0 rfl

/-- C5 counterexample: on the zero-total-weight input the outcome carries no
error at all — in particular not `EmptyIngredientListError` — refuting the
claim that the save fails with that error. -/
theorem c5_counterexample :
    saveCompositeFood sampleCatalog ("Mix".data) [] =
      some (sampleCatalog, (none : Option DietError)) ∧
    (none : Option DietError) ≠ some DietError.emptyIngredientList := by
  refine ⟨?_, by decide⟩
  simp [saveCompositeFood, collectIngredients]

/-- C6 (amended): `max_weight` is the maximum of the weight series excluding
`None` entries when the series is nonempty and some weight is present, and 0
when the series itself is empty; a **nonempty** series whose entries are all
`None` instead reaches `max([])` and raises (`none`), rather than giving 0.
`factor = max_weight / max_calories` when `max_calories > 0` and 1
otherwise; with `max_weight = 80`, `max_calories = 2000` the factor is
`0.04` and the calorie value 1800 maps to 72 on the primary scale. -/
theorem c6_normalization_amended :
    maxWeightOf [] = some 0 ∧
    (∀ ws : List (Option ℚ), ws ≠ [] → ws.filterMap id = [] →
      maxWeightOf ws = none) ∧
    (∀ (ws : List (Option ℚ)) (m : ℚ), ws ≠ [] → maxWeightOf ws = some m →
      m ∈ ws.filterMap id ∧ ∀ x ∈ ws.filterMap id, x ≤ m) ∧
    (∀ mw mc : ℚ, (0 < mc → normFactor mw mc = mw / mc) ∧
      (¬0 < mc → normFactor mw mc = 1)) ∧
    normFactor 80 2000 = 1 / 25 ∧ 1800 * normFactor 80 2000 = 72 := by
  refine ⟨by simp [maxWeightOf], ?_, ?_, ?_, ?_, ?_⟩
  · intro ws h1 h2
    rw [maxWeightOf, if_neg h1, h2]
    rfl
  · intro ws m h1 hm
    rw [maxWeightOf, if_neg h1] at hm
    rcases hmax : (ws.filterMap id).maximum with _ | mm
    · rw [hmax] at hm; exact absurd hm (by simp)
    · rw [hmax] at hm
      injection hm with hm
      subst hm
      exact ⟨List.maximum_mem hmax,
        fun x hx => List.le_maximum_of_mem hx hmax⟩
  · intro mw mc
    constructor <;> intro h <;> simp [normFactor, h]
  · rw [normFactor, if_pos (by norm_num)]; norm_num
  · rw [normFactor, if_pos (by norm_num)]; norm_num

/-- C6 witness: on the series `[some 80, none]` the computed maximum 80 is a
member of the non-`None` weights and bounds them all. -/
theorem c6_normalization_amended_witness :
    (80 : ℚ) ∈ ([some 80, none] : List (Option ℚ)).filterMap id ∧
      ∀ x ∈ ([some 80, none] : List (Option ℚ)).filterMap id, x ≤ 80 :=
  c6_normalization_amended.2.2.1 [some 80, none] 80 (by simp)
    (by simp [maxWeightOf, List.maximum_cons])

/-- C6 counterexample: a nonempty weight series whose entries are all
"not applicable" makes the computation raise (`none`), not return `some 0`
as the claim states. -/
theorem c6_counterexample :
    maxWeightOf [none] = none ∧ (none : Option ℚ) ≠ some 0 := by
  exact ⟨rfl, by simp⟩

/-- C10 (amended): for a row with a present weight, the protein cell is red
exactly when the **displayed** protein — the day's total rounded to the
nearest integer by the `"{:.0f}"` format — is below `0.8 * weight`; a red
cell still implies the exact total is below `0.8 * weight + 1/2`; rows
without a weight are never highlighted. -/
theorem c10_protein_highlight_amended :
    ∀ w p : ℚ,
      (proteinCellRed (some w) p = true ↔ (pyRound0 p : ℚ) < 0.8 * w) ∧
      proteinCellRed none p = false ∧
      (proteinCellRed (some w) p = true → p < 0.8 * w + 1 / 2) := by
  intro w p
  refine ⟨by simp [proteinCellRed], rfl, ?_⟩
  intro h
  have hlt : (pyRound0 p : ℚ) < 0.8 * w := by
    simpa [proteinCellRed] using h
  have hb := (pyRound0_bounds p).1
  linarith

/-- C10 witness: with weight 80 and total protein 63.4, the cell is red and
the exact total is indeed below `0.8 * 80 + 1/2`. -/
theorem c10_protein_highlight_amended_witness :
    proteinCellRed (some 80) (634 / 10) = true ∧
      (634 / 10 : ℚ) < 0.8 * 80 + 1 / 2 :=
  ⟨by simp [proteinCellRed, pyRound0]; norm_num [Int.fract],
   (c10_protein_highlight_amended 80 (634 / 10)).2.2
     (by simp [proteinCellRed, pyRound0]; norm_num [Int.fract])⟩

/-- C10 counterexample: weight 80 and total protein 63.6 — the exact total
is below the 0.8 g/kg threshold (63.6 < 64), yet the cell is not red because
the displayed value rounds to 64. -/
theorem c10_counterexample :
    proteinCellRed (some 80) (636 / 10) = false ∧ (636 / 10 : ℚ) < 0.8 * 80 := by
  constructor
  · simp [proteinCellRed, pyRound0]
    norm_num [Int.fract]
  · norm_num

/-- C1 (amended): calling `add_basic` with the name of an existing Basic
food does **not** fail — no duplicate check exists on this path and no
error is signalled; instead a second `basic_food` row with the same name is
appended.  The already-stored food's row is untouched, and the single-table
lookup (first row in rowid order) still returns the original
`calories_per_100g` / `protein_per_100g`. -/
theorem c1_duplicate_add_basic_amended (cat : Catalog)
    (name calStr protStr : Str) (c p : ℚ)
    (hmem : name ∈ cat.basic.map Prod.fst)
    (hc : pyFloatQ calStr = some c) (hp : pyFloatQ protStr = some p)
    (hn : name ≠ []) (hcs : calStr ≠ []) (hps : protStr ≠ []) :
    saveBasicFood cat name calStr protStr =
      some ({ cat with basic := cat.basic ++ [(name, c, p)] }, none) ∧
    lookupBasic { cat with basic := cat.basic ++ [(name, c, p)] } name =
      lookupBasic cat name := by
  constructor
  · simp [saveBasicFood, hn, hcs, hps, hc, hp]
  · exact lookupBasic_append_of_mem hmem (name, c, p) cat.composite

/-- C1 witness: adding "Rice" (already present with values (130, 2.7)) a
second time with values (999, 9) appends a second row without error, and
the lookup of "Rice" is unchanged. -/
theorem c1_duplicate_add_basic_amended_witness :
    saveBasicFood sampleCatalog ("Rice".data) ("999".data) ("9".data) =
      some ({ sampleCatalog with
               basic := sampleCatalog.basic ++ [("Rice".data, 999, 9)] },
            none) ∧
    lookupBasic { sampleCatalog with
                   basic := sampleCatalog.basic ++ [("Rice".data, 999, 9)] }
        ("Rice".data) =
      lookupBasic sampleCatalog ("Rice".data) :=
  c1_duplicate_add_basic_amended sampleCatalog ("Rice".data) ("999".data)
    ("9".data) 999 9 (by simp [sampleCatalog])
    (by simp [pyFloatQ, pySplit, pySplitAux, parseDigits, Char.toNat]
        norm_num)
    (by simp [pyFloatQ, pySplit, pySplitAux, parseDigits, Char.toNat]
        norm_num)
    (by simp) (by simp) (by simp)

/-- C1 counterexample: the second `add_basic` call for the existing name
"Rice" signals no error (in particular no `DuplicateNameError`) and the
resulting `basic_food` table has three rows — a second "Rice" row **was**
inserted. -/
theorem c1_counterexample :
    (saveBasicFood sampleCatalog ("Rice".data) ("999".data)
        ("9".data)).map (fun r => (r.1.basic.length, r.2)) =
      some (3, (none : Option DietError)) ∧
    (none : Option DietError) ≠ some DietError.duplicateName := by
  constructor
  · simp [saveBasicFood, pyFloatQ, pySplit, pySplitAux, parseDigits,
      Char.toNat, sampleCatalog]
  · simp

/-- C4 (amended): in the history computation, `previous_weight` is set to
the current day's weight **unconditionally** after each row — a day with no
weight resets it to `None` instead of carrying the last weight forward — so
each row's prior delta is `weight(day) - weight(immediately preceding
record)` when both are present and "not applicable" otherwise. -/
theorem c4_prior_delta_amended (cat : Catalog) (rs : List DayRecord)
    (prev : Option ℚ) (out : List HistoryRow)
    (h : historyRowsLoop cat rs prev = some out) :
    out.map (fun r => r.priorDiff) =
      List.zipWith (fun w pw => Option.map₂ (fun a b => a - b) w pw)
        (rs.map fun r => r.weight) (prev :: rs.map fun r => r.weight) :=
  historyRowsLoop_priorDiff cat rs prev out h

/-- C4 witness: over the records (80 kg, no weight, 79 kg) the loop's prior
deltas are exactly the pairwise differences with the immediately preceding
record's (possibly absent) weight: all "not applicable" here, because the
middle day resets `previous_weight`. -/
theorem c4_prior_delta_amended_witness :
    sampleHistoryRows.map (fun r => r.priorDiff) =
      List.zipWith (fun w pw => Option.map₂ (fun a b => a - b) w pw)
        (sampleRecords.map fun r => r.weight)
        (none :: sampleRecords.map fun r => r.weight) :=
  c4_prior_delta_amended (Catalog.mk [] []) sampleRecords none
    sampleHistoryRows
    (by simp [historyRowsLoop, dayTotals, parsePairs, sampleRecords,
          sampleHistoryRows, priorDelta, goalWeight, foodTotalsLoop,
          exerciseTotalsLoop]
        norm_num)

/-- C4 counterexample: with records D1 = 80 kg, D2 = no weight, D3 = 79 kg,
the claim's carry-forward reading predicts `prior_delta(D3) = 79 - 80`, but
the computed history shows "not applicable" (`none`) for every row — the
day without a weight resets `previous_weight` to `None`. -/
theorem c4_counterexample :
    (calculateDailyTotals (Catalog.mk [] []) sampleRecords).map
        (fun rows => rows.map fun r => r.priorDiff) =
      some [none, none, none] ∧
    (none : Option ℚ) ≠ some (79 - 80 : ℚ) := by
  constructor
  · simp [calculateDailyTotals, historyRowsLoop, dayTotals, parsePairs,
      sampleRecords, priorDelta, goalWeight, foodTotalsLoop,
      exerciseTotalsLoop]
  · simp

/-- C2 (amended): a composite food saved from ingredient rows that all
resolve is stored with
`calories_per_100g = (Σ cᵢ·qᵢ/100) / (Σ qᵢ) · 100` and
`protein_per_100g = (Σ pᵢ·qᵢ/100) / (Σ qᵢ) · 100` (sums over the resolved
ingredients, total weight positive) — for the spec's Rice/Chicken example
these come to exactly 145 and 519/35 ≈ 14.83. -/
theorem c2_composite_derived_values (cat : Catalog) (name : Str)
    (rows : List (Str × Str))
    (hres : ∀ row ∈ rows, row.1 ≠ [] → row.2 ≠ [] →
      (lookupFood cat row.1).isSome → (pyFloatQ row.2).isSome)
    (hn : name ≠ [])
    (hw : 0 < ((rows.filterMap (specResolvedIngredient cat)).map
        fun t => t.2.2).sum) :
    saveCompositeFood cat name rows =
      some ({ cat with composite := cat.composite ++
        [(name,
          rows.filterMap fun row =>
            (specResolvedIngredient cat row).map fun t => (row.1, t.2.2),
          ((rows.filterMap (specResolvedIngredient cat)).map
              fun t => t.1 * t.2.2 / 100).sum /
            ((rows.filterMap (specResolvedIngredient cat)).map
              fun t => t.2.2).sum * 100,
          ((rows.filterMap (specResolvedIngredient cat)).map
              fun t => t.2.1 * t.2.2 / 100).sum /
            ((rows.filterMap (specResolvedIngredient cat)).map
              fun t => t.2.2).sum * 100)] }, none) := by
  have hcol := collectIngredients_eq cat rows hres
  rw [saveCompositeFood, if_neg hn, hcol]
  simp [hw]

/-- C2 witness: the spec's example — Rice (130, 2.7) at 200 g and Chicken
(165, 31) at 150 g — stores exactly `calories_per_100g = 145` and
`protein_per_100g = 519/35`. -/
theorem c2_composite_derived_values_witness :
    saveCompositeFood sampleCatalog ("Meal".data)
        [("Rice".data, "200".data), ("Chicken".data, "150".data)] =
      some ({ sampleCatalog with composite :=
        [("Meal".data, [("Rice".data, 200), ("Chicken".data, 150)],
          145, 519 / 35)] }, none) := by
  have h := c2_composite_derived_values sampleCatalog ("Meal".data)
    [("Rice".data, "200".data), ("Chicken".data, "150".data)]
    (by
      intro row hr h1 h2 h3
      simp only [List.mem_cons, List.not_mem_nil, or_false] at hr
      rcases hr with rfl | rfl <;>
        simp [pyFloatQ, pySplit, pySplitAux, parseDigits, Char.toNat])
    (by simp)
    (by
      simp [specResolvedIngredient, lookupFood, lookupBasic, lookupComposite,
        sampleCatalog, pyFloatQ, pySplit, pySplitAux, parseDigits, Char.toNat]
      norm_num)
  refine h.trans ?_
  simp [specResolvedIngredient, lookupFood, lookupBasic, lookupComposite,
    sampleCatalog, pyFloatQ, pySplit, pySplitAux, parseDigits, Char.toNat]
  norm_num

/-- C2 counterexample: the stored calories-per-100g of the Rice/Chicken
composite is exactly 145, which does not round to the claim's "≈ 144.97"
(it lies outside [144.965, 144.975]). -/
theorem c2_counterexample :
    (saveCompositeFood sampleCatalog ("Meal".data)
        [("Rice".data, "200".data), ("Chicken".data, "150".data)]).map
        (fun r => r.1.composite.map fun row => (row.2.2.1, row.2.2.2)) =
      some [((145 : ℚ), (519 / 35 : ℚ))] ∧
    ¬((144965 / 1000 : ℚ) ≤ 145 ∧ (145 : ℚ) ≤ 144975 / 1000) := by
  constructor
  · simp [saveCompositeFood, collectIngredients, lookupFood, lookupBasic,
      lookupComposite, sampleCatalog, pyFloatQ, pySplit, pySplitAux,
      parseDigits, Char.toNat]
    norm_num
  · norm_num

/-- C8: for a date that already has a record, each merge-write touches only
its own field: `save_weight` keeps `food_consumed` and `exercises`
byte-for-byte; `save_food` keeps the weight and `exercises` and appends its
entry after all existing food entries (removing and deduplicating nothing);
`save_exercise` symmetrically; and no other date's record changes. -/
theorem c8_merge_writes_frame (store : DailyStore) (date : Str)
    (w0 : Option ℚ) (fs es : Str)
    (hrec : store date = some (w0, fs, es)) (w : ℚ) (fEntry eEntry : Str)
    (hf1 : (';' : Char) ∉ fEntry) (hf2 : fEntry ≠ [])
    (he1 : (';' : Char) ∉ eEntry) (he2 : eEntry ≠ []) :
    (saveWeight store date w date = some (some w, fs, es) ∧
      ∀ d, d ≠ date → saveWeight store date w d = store d) ∧
    (saveFood store date fEntry date =
        some (w0, appendEntry fs fEntry, es) ∧
      entriesOf (appendEntry fs fEntry) = entriesOf fs ++ [fEntry] ∧
      ∀ d, d ≠ date → saveFood store date fEntry d = store d) ∧
    (saveExercise store date eEntry date =
        some (w0, fs, appendEntry es eEntry) ∧
      entriesOf (appendEntry es eEntry) = entriesOf es ++ [eEntry] ∧
      ∀ d, d ≠ date → saveExercise store date eEntry d = store d) := by
  refine ⟨⟨?_, ?_⟩, ⟨?_, entriesOf_appendEntry hf1 hf2, ?_⟩,
    ⟨?_, entriesOf_appendEntry he1 he2, ?_⟩⟩
  · simp [saveWeight, existingDaily, hrec]
  · intro d hd; simp [saveWeight, hd]
  · simp [saveFood, existingDaily, hrec]
  · intro d hd; simp [saveFood, hd]
  · simp [saveExercise, existingDaily, hrec]
  · intro d hd; simp [saveExercise, hd]

/-- C8 witness: on the sample store's record (weight 80, one food entry,
one exercise entry), each of the three writes changes only its own field
and the appended field parses to the old entries plus the new one. -/
theorem c8_merge_writes_frame_witness :
    (saveWeight sampleStore ("2024-01-01".data) 81) ("2024-01-01".data) =
      some (some 81, "Rice,100.0".data, "Run,200.0".data) ∧
    (saveFood sampleStore ("2024-01-01".data) ("Egg,50.0".data))
        ("2024-01-01".data) =
      some (some 80, appendEntry ("Rice,100.0".data) ("Egg,50.0".data),
        "Run,200.0".data) ∧
    entriesOf (appendEntry ("Rice,100.0".data) ("Egg,50.0".data)) =
      entriesOf ("Rice,100.0".data) ++ ["Egg,50.0".data] ∧
    (saveExercise sampleStore ("2024-01-01".data) ("Swim,300.0".data))
        ("2024-01-01".data) =
      some (some 80, "Rice,100.0".data,
        appendEntry ("Run,200.0".data) ("Swim,300.0".data)) := by
  have h := c8_merge_writes_frame sampleStore ("2024-01-01".data) (some 80)
    ("Rice,100.0".data) ("Run,200.0".data) (by simp [sampleStore]) 81
    ("Egg,50.0".data) ("Swim,300.0".data)
    (by decide) (by decide) (by decide) (by decide)
  exact ⟨h.1.1, h.2.1.1, h.2.1.2.1, h.2.2.1⟩

/-- C7 (amended): the secondary-axis ticks divide the primary range by the
factor and truncate with `int(...)`; the low bound is floor-rounded to a
multiple of 100 (for nonnegative ranges this matches the claim), but the
high bound is `(⌊high/factor/100⌋ + 1) · 100` — one full 100-step above the
floor, hence strictly above `high/factor` even when that is already a
multiple of 100 — and one tick per 100 is emitted over that inclusive
range, each mapping `rv` to the coordinate `rv · factor` with label `rv`. -/
theorem c7_tick_rounding_amended (low high factor : ℚ)
    (h0 : 0 ≤ low) (h1 : low ≤ high) (hf : 0 < factor) :
    generateRightAxisTicks low high factor =
      amendedRightAxisTicks low high factor := by
  have hl : 0 ≤ low / factor := div_nonneg h0 hf.le
  have hh : 0 ≤ high / factor := div_nonneg (h0.trans h1) hf.le
  rw [generateRightAxisTicks, amendedRightAxisTicks,
    pyTrunc_of_nonneg hl, pyTrunc_of_nonneg hh,
    Int.fdiv_eq_ediv _ (by norm_num), Int.fdiv_eq_ediv _ (by norm_num),
    ← floor_rat_div_100, ← floor_rat_div_100]

/-- C7 witness: on the range [0, 80] with factor 0.04 the embedded tick
generator coincides with the amended description. -/
theorem c7_tick_rounding_amended_witness :
    generateRightAxisTicks 0 80 (1 / 25) =
      amendedRightAxisTicks 0 80 (1 / 25) :=
  c7_tick_rounding_amended 0 80 (1 / 25) (by norm_num) (by norm_num)
    (by norm_num)

/-- C7 counterexample: on the range [0, 80] with factor 0.04,
`high/factor = 2000` is already a multiple of 100, yet the generator emits
22 ticks (up to label 2100) while the claim's rounding gives 21 (up to
2000) — the tick lists differ. -/
theorem c7_counterexample :
    (generateRightAxisTicks 0 80 (1 / 25)).length = 22 ∧
    (specRightAxisTicks 0 80 (1 / 25)).length = 21 ∧
    generateRightAxisTicks 0 80 (1 / 25) ≠ specRightAxisTicks 0 80 (1 / 25) := by
  have h1 : (generateRightAxisTicks 0 80 (1 / 25)).length = 22 := by
    rw [generateRightAxisTicks, ticksFromBounds,
      if_neg (by norm_num [pyTrunc, Int.fdiv_eq_ediv]),
      List.length_map, List.length_range]
    norm_num [pyTrunc, Int.fdiv_eq_ediv]
    decide
  have h2 : (specRightAxisTicks 0 80 (1 / 25)).length = 21 := by
    rw [specRightAxisTicks, ticksFromBounds, if_neg (by norm_num),
      List.length_map, List.length_range]
    norm_num
    decide
  refine ⟨h1, h2, fun h => ?_⟩
  rw [h, h2] at h1
  exact absurd h1 (by norm_num)
